import Mathlib

/-!
Verification development for the financial-statement notes parser
(`financial_statement_parser/parser.py`).

Python strings are modelled as `List Char` (one entry per code point,
matching Python indexing/slicing); raised exceptions are modelled as
`none` of an `Option` result; the mutable parser object is modelled as
an explicit state record that functions take and return.
-/

namespace FSP

abbrev Str := List Char

def str (s : String) : Str := s.toList

def isDig (c : Char) : Bool := decide ('0' ≤ c) && decide (c ≤ '9')

def digitVal (c : Char) : Nat := c.toNat - '0'.toNat

/-- Calendar date value, the model of a Python `datetime` produced by
`datetime.strptime(date_str, "%Y-%m-%d")`. -/
structure Date where
  year : Nat
  month : Nat
  day : Nat
deriving DecidableEq, Repr

/-- A period value appended to `use_dates`: either a `datetime` (exact date)
or a `str` fiscal label such as `"2022-Q1"` (range form). -/
inductive PeriodVal where
  | date (d : Date)
  | label (s : Str)
deriving DecidableEq, Repr

def PeriodVal.isDate : PeriodVal → Bool
  | .date _ => true
  | .label _ => false

/-- An extracted numeric value: an integer (parenthesis-negative convention,
`-` mapped to zero) or an opaque percentage-range string. -/
inductive Value where
  | num (n : Int)
  | pct (s : Str)
deriving DecidableEq, Repr

/-- One registry entry of `subjects_dict`.  Python stores a per-key dict;
the global base-name entries created as `{subject: {"Count": 0}}` have no
`"Period"`/`"Subject"` keys, modelled by `none` (indexing them raises
`KeyError`, modelled as `none` results downstream). -/
structure Entry where
  count : Nat
  period : Option (List PeriodVal)
  subject : Option Str
deriving DecidableEq, Repr

abbrev Registry := List (Str × Entry)

def lookupR : Registry → Str → Option Entry
  | [], _ => none
  | (k, e) :: r, k' => if k = k' then some e else lookupR r k'

def modifyR : Registry → Str → (Entry → Entry) → Registry
  | [], _, _ => []
  | (k, e) :: r, k', f => if k = k' then (k, f e) :: r else (k, e) :: modifyR r k' f

def insertR (r : Registry) (k : Str) (e : Entry) : Registry :=
  if (lookupR r k).isSome then modifyR r k (fun _ => e) else r ++ [(k, e)]

/-- One emitted row of `self.data`:
`[token, account, date, num, self.category, self._subject_annotations, self._cur_subject]`. -/
structure Rec where
  account : Str
  fourth : Option Str
  period : PeriodVal
  value : Value
  category : Option Str
  annot : Str
  subject : Str
deriving DecidableEq, Repr

/-- The mutable fields of `FinancialStatementParser` that the verified
operations read or write. -/
structure ParserSt where
  subjects_dict : Registry
  main_subjects : List Str
  data : List Rec
  use_dates : List PeriodVal
  category : Option Str
  fourth_grade_account : Option (List Str)
  other_count : Int
  last_append_date_idx : Nat
  last_sentence : Str
  remark : Str
  cur_subject : Str
  subject_annot : Str
deriving DecidableEq, Repr

/-! ## Fixed account sets (`REFERRED_ACCOUNTS`, `DUPLICATED_CONTENT`) -/

def referredAccounts : List Str :=
  [str "其他", str "合計", str "匯率影響數", str "期初餘額", str "期末餘額", str "利率區間"]

def duplicatedAccounts : List Str := str "成本" :: referredAccounts

/-! ## Period pattern matcher

`PERIOD_PATTERN = [0-9]{3}[年\.][0-9]{1,2}[月\.][0-9]{1,2}(?:[日至~]{0,}[0-9]{1,2}[月\.][0-9]{1,2})?`
implemented with the backtracking semantics of `re`: each `{1,2}` repeat
takes two digits when the continuation still matches, else one. -/

def isMonthSep (c : Char) : Bool := c = '月' || c = '.'

def isRangeMark (c : Char) : Bool := c = '日' || c = '至' || c = '~'

/-- Matches `[0-9]{1,2}[月\.]`, greedy with backtracking on the repeat. -/
def matchMonthPart : Str → Option (Str × Str)
  | a :: b :: c :: rest =>
    if isDig a && isDig b && isMonthSep c then some ([a, b, c], rest)
    else if isDig a && isMonthSep b then some ([a, b], c :: rest)
    else none
  | [a, b] => if isDig a && isMonthSep b then some ([a, b], []) else none
  | _ => none

/-- Matches `[0-9]{1,2}`, greedy. -/
def matchDayDigits : Str → Option (Str × Str)
  | a :: b :: rest =>
    if isDig a && isDig b then some ([a, b], rest)
    else if isDig a then some ([a], b :: rest)
    else none
  | [a] => if isDig a then some ([a], []) else none
  | [] => none

/-- Matches the optional tail group `[日至~]{0,}[0-9]{1,2}[月\.][0-9]{1,2}`;
the greedy star over range markers never needs to give characters back
because no range marker is a digit. -/
def matchOptTail (cs : Str) : Option (Str × Str) :=
  let marks := cs.takeWhile isRangeMark
  let rest := cs.dropWhile isRangeMark
  match matchMonthPart rest with
  | some (mp, r1) =>
    match matchDayDigits r1 with
    | some (dd, r2) => some (marks ++ mp ++ dd, r2)
    | none => none
  | none => none

/-- Attempt to match `PERIOD_PATTERN` at the head of the string; returns the
matched text and the remainder. -/
def matchPeriodAt : Str → Option (Str × Str)
  | a :: b :: c :: d :: rest =>
    if isDig a && isDig b && isDig c && (d = '年' || d = '.') then
      match matchMonthPart rest with
      | some (mp, r1) =>
        match matchDayDigits r1 with
        | some (dd, r2) =>
          match matchOptTail r2 with
          | some (tl, r3) => some ([a, b, c, d] ++ mp ++ dd ++ tl, r3)
          | none => some ([a, b, c, d] ++ mp ++ dd, r2)
        | none => none
      | none => none
    else none
  | _ => none

/-- `re.finditer` over `PERIOD_PATTERN`: scan left to right, non-overlapping
matches; fuel bounds the number of scan steps (each step consumes at least
one character, so `length` steps suffice). -/
def finditerAux : Nat → Str → List Str
  | 0, _ => []
  | _ + 1, [] => []
  | fuel + 1, c :: cs =>
    match matchPeriodAt (c :: cs) with
    | some (m, rest) => m :: finditerAux fuel rest
    | none => finditerAux fuel cs

def extractPeriods (s : Str) : List Str := finditerAux s.length s

/-! ## `transform_date` and its helpers -/

/-- `QUATER_MAP`. -/
def quaterMap : List (Str × Str) :=
  [(str "1月1至3月31", str "Q1"), (str "4月1至6月30", str "Q2"),
   (str "7月1至9月30", str "Q3"), (str "10月1至12月31", str "Q4"),
   (str "1月1至6月30", str "H1"), (str "7月1至12月31", str "H2")]

def lookupQ : List (Str × Str) → Str → Option Str
  | [], _ => none
  | (k, v) :: r, k' => if k = k' then some v else lookupQ r k'

def daysInMonth (y m : Nat) : Nat :=
  if m = 2 then (if (y % 4 = 0 && y % 100 ≠ 0) || y % 400 = 0 then 29 else 28)
  else if m = 4 || m = 6 || m = 9 || m = 11 then 30 else 31

/-- CPython `_strptime` directive `%m`, the regex `1[0-2]|0[1-9]|[1-9]`. -/
def parseMonth : Str → Option (Nat × Str)
  | a :: b :: rest =>
    if a = '1' && decide ('0' ≤ b) && decide (b ≤ '2') then some (10 + digitVal b, rest)
    else if a = '0' && decide ('1' ≤ b) && decide (b ≤ '9') then some (digitVal b, rest)
    else if decide ('1' ≤ a) && decide (a ≤ '9') then some (digitVal a, b :: rest)
    else none
  | [a] => if decide ('1' ≤ a) && decide (a ≤ '9') then some (digitVal a, []) else none
  | [] => none

/-- CPython `_strptime` directive `%d`, the regex `3[01]|[12]\d|0[1-9]|[1-9]`. -/
def parseDay : Str → Option (Nat × Str)
  | a :: b :: rest =>
    if a = '3' && (b = '0' || b = '1') then some (30 + digitVal b, rest)
    else if (a = '1' || a = '2') && isDig b then some (digitVal a * 10 + digitVal b, rest)
    else if a = '0' && decide ('1' ≤ b) && decide (b ≤ '9') then some (digitVal b, rest)
    else if decide ('1' ≤ a) && decide (a ≤ '9') then some (digitVal a, b :: rest)
    else none
  | [a] => if decide ('1' ≤ a) && decide (a ≤ '9') then some (digitVal a, []) else none
  | [] => none

/-- `datetime.strptime(s, "%Y-%m-%d")`: four-digit year, dashes, month and
day per the `%m`/`%d` regexes, the whole string consumed ("unconverted data
remains" otherwise), then the day validated against the month length by the
`datetime` constructor.  `none` models the raised `ValueError`. -/
def strptimeYmd (s : Str) : Option Date :=
  match s with
  | y1 :: y2 :: y3 :: y4 :: '-' :: rest =>
    if isDig y1 && isDig y2 && isDig y3 && isDig y4 then
      let y := digitVal y1 * 1000 + digitVal y2 * 100 + digitVal y3 * 10 + digitVal y4
      match parseMonth rest with
      | some (m, '-' :: rest2) =>
        match parseDay rest2 with
        | some (d, []) => if d ≤ daysInMonth y m then some ⟨y, m, d⟩ else none
        | _ => none
      | _ => none
    else none
  | _ => none

/-- Decimal digits of a natural number, the model of Python `str(year)`. -/
def natDigits (n : Nat) : Str := (toString n).toList

/-- `transform_date`: `year = int(s[:3]) + 1911`; if the string has no range
marker (`至`/`~`), replace `年`/`月` by `-`, prepend the year and parse as a
date; otherwise look `s[4:]` up in `QUATER_MAP` and build `"{year}-{code}"`.
`none` models every raised exception: `int()` failing on non-digits,
`strptime` failing (`DateFormatError` situation), and the `TypeError` from
concatenating `str(year) + "-" + None` when the map lookup misses. -/
def transform_date (s : Str) : Option PeriodVal :=
  match s with
  | a :: b :: c :: _ =>
    if isDig a && isDig b && isDig c then
      let year := (digitVal a * 100 + digitVal b * 10 + digitVal c) + 1911
      if s.any (fun ch => ch = '至' || ch = '~') then
        match lookupQ quaterMap (s.drop 4) with
        | some code => some (.label (natDigits year ++ ['-'] ++ code))
        | none => none
      else
        match strptimeYmd (natDigits year ++ (s.map (fun ch => if ch = '年' || ch = '月' then '-' else ch)).drop 3) with
        | some d => some (.date d)
        | none => none
    else none
  | _ => none

/-! ## Sorting the transformed periods (`sorted(..., reverse=True)`)

Python compares `datetime` values chronologically and `str` values
lexicographically by code point; comparing a `datetime` with a `str`
raises `TypeError`, and any comparison sort of a list containing both
kinds must perform at least one such cross comparison. -/

def dateLeB (a b : Date) : Bool :=
  decide (a.year < b.year) ||
    (decide (a.year = b.year) &&
      (decide (a.month < b.month) ||
        (decide (a.month = b.month) && decide (a.day ≤ b.day))))

def strLeB : Str → Str → Bool
  | [], _ => true
  | _ :: _, [] => false
  | a :: as, b :: bs =>
    if a.toNat < b.toNat then true
    else if b.toNat < a.toNat then false
    else strLeB as bs

/-- `x` sorts before `y` in descending order (`x >= y` under the Python
order); `false` on a mixed pair, which `sortDescO` rules out. -/
def pvGeB : PeriodVal → PeriodVal → Bool
  | .date a, .date b => dateLeB b a
  | .label a, .label b => strLeB b a
  | _, _ => false

def insertDesc (x : PeriodVal) : List PeriodVal → List PeriodVal
  | [] => [x]
  | y :: ys => if pvGeB x y then x :: y :: ys else y :: insertDesc x ys

def sortDesc : List PeriodVal → List PeriodVal
  | [] => []
  | x :: xs => insertDesc x (sortDesc xs)

/-- All elements are comparable with each other: the list is all dates or
all labels (lists with at most one element vacuously qualify, as Python
`sorted` performs no comparison on them). -/
def sameKind (l : List PeriodVal) : Bool :=
  l.all (fun v => v.isDate) || l.all (fun v => !v.isDate)

/-- `sorted(ts, reverse=True)`: `none` models the `TypeError` raised when a
`datetime` is compared with a `str`. -/
def sortDescO (l : List PeriodVal) : Option (List PeriodVal) :=
  if sameKind l then some (sortDesc l) else none

/-! ## `_reform_sentence_and_extract_dates_str_and_locs` -/

/-- Literal match of `pat` at the head of `s`: the remainder after the
match, or `none`. -/
def litMatch : Str → Str → Option Str
  | [], rest => some rest
  | _ :: _, [] => none
  | p :: ps, c :: cs => if p = c then litMatch ps cs else none

/-- Remove every occurrence of a (nonempty, metacharacter-free) matched date
string from the sentence, as `re.sub(date, "", sentence)` does; fuel as in
`finditerAux`. -/
def removeOccAux : Nat → Str → Str → Str
  | 0, _, s => s
  | _ + 1, _, [] => []
  | fuel + 1, pat, c :: cs =>
    match pat with
    | [] => c :: cs
    | _ :: _ =>
      match litMatch pat (c :: cs) with
      | some rest => removeOccAux fuel pat rest
      | none => c :: removeOccAux fuel pat cs

def removeOcc (pat s : Str) : Str := removeOccAux s.length pat s

def removeDateStrs (dates : List Str) (s : Str) : Str :=
  dates.foldl (fun acc d => removeOcc d acc) s

/-- The list comprehension `[self.transform_date(date) for date in dates_str]`:
the first exception aborts the whole run. -/
def transformAll : List Str → Option (List PeriodVal)
  | [] => some []
  | d :: ds =>
    match transform_date d with
    | none => none
    | some v =>
      match transformAll ds with
      | none => none
      | some vs => some (v :: vs)

/-- `_reform_sentence_and_extract_dates_str_and_locs`: find all period
substrings, strip them from the sentence, transform each, sort descending
and extend `use_dates`.  Result: the reformed sentence and the new
`use_dates`; `none` models an exception escaping (unmapped range lookup,
unparseable date, or mixed-type sort). -/
def reformExtract (sentence : Str) (use_dates : List PeriodVal) :
    Option (Str × List PeriodVal) :=
  let ds := extractPeriods sentence
  let s' := removeDateStrs ds sentence
  match transformAll ds with
  | none => none
  | some ts =>
    match sortDescO ts with
    | none => none
    | some sorted => some (s', use_dates ++ sorted)

/-! ## `_clean_sentence`

`unwanted_pattern = r" |\r|日|－|\(註\d{0,}\)|^0|\d+年度|、"`, and when the
one-shot `_next_sentence_remove` text is nonempty it is appended to the
pattern string, so the final alternative becomes `、<consume-text>`.
The method is wrapped in `functools.lru_cache`, whose key is the sentence
text alone, so a cache hit returns the stored result and skips both the
substitution and the clearing of `_next_sentence_remove`. -/

/-- Matches `\(註\d{0,}\)`. -/
def matchNoteRef : Str → Option Str
  | '(' :: '註' :: rest =>
    (match rest.dropWhile isDig with
     | ')' :: r => some r
     | _ => none)
  | _ => none

/-- Matches `\d+年度` (greedy digits; giving digits back can never help
because the follow-up literal starts with a non-digit). -/
def matchYearBoiler (cs : Str) : Option Str :=
  let ds := cs.takeWhile isDig
  match ds with
  | [] => none
  | _ :: _ =>
    match cs.dropWhile isDig with
    | '年' :: '度' :: r => some r
    | _ => none

/-- Try the alternatives of the cleaning pattern, in order, at the current
position.  `atStart` is true only at string position 0 (`^0`).  The final
alternative is `、` when no consume text is pending, and the concatenation
`、<consume>` otherwise. -/
def matchCleanAlt (consume : Str) (atStart : Bool) (cs : Str) : Option Str :=
  match litMatch [' '] cs with
  | some r => some r
  | none =>
  match litMatch ['\r'] cs with
  | some r => some r
  | none =>
  match litMatch ['日'] cs with
  | some r => some r
  | none =>
  match litMatch ['－'] cs with
  | some r => some r
  | none =>
  match matchNoteRef cs with
  | some r => some r
  | none =>
  match (if atStart then litMatch ['0'] cs else none) with
  | some r => some r
  | none =>
  match matchYearBoiler cs with
  | some r => some r
  | none => litMatch ('、' :: consume) cs

def cleanAux (consume : Str) : Nat → Bool → Str → Str
  | 0, _, s => s
  | _ + 1, _, [] => []
  | fuel + 1, atStart, c :: cs =>
    match matchCleanAlt consume atStart (c :: cs) with
    | some rest => cleanAux consume fuel false rest
    | none => c :: cleanAux consume fuel false cs

/-- The substitution `re.sub(unwanted_pattern, "", sentence)` performed on a
cache miss, with the pending consume text appended to the pattern. -/
def cleanRe (consume : Str) (s : Str) : Str := cleanAux consume s.length true s

/-- The cache and the one-shot consume field of the cleaner. -/
structure CleanerSt where
  cache : List (Str × Str)
  consume : Str
deriving DecidableEq, Repr

def lookupCache : List (Str × Str) → Str → Option Str
  | [], _ => none
  | (k, v) :: r, k' => if k = k' then some v else lookupCache r k'

/-- `_clean_sentence` as observed through the `lru_cache` wrapper: a hit
returns the stored text and leaves the consume field untouched; a miss
substitutes with the current pattern, stores the result under the sentence
text alone, and clears the consume field. -/
def cleanCached (st : CleanerSt) (s : Str) : Str × CleanerSt :=
  match lookupCache st.cache s with
  | some r => (r, st)
  | none =>
    let r := cleanRe st.consume s
    (r, ⟨(s, r) :: st.cache, []⟩)

/-! ## `change_token` and `_reset_other_count` -/

/-- The character class `[{''.join(referred_accounts)}]$`: the set of the
characters occurring in the six referred account names. -/
def ambigChars : Str := str "其他合計匯率影響數期初餘額期末餘額利率區間"

def lastCharAmbig (s : Str) : Bool :=
  match s.getLast? with
  | some c => ambigChars.contains c
  | none => false

/-- Python `last_account.split("-")`. -/
def splitOnChar (sep : Char) : Str → List Str
  | [] => [[]]
  | c :: cs =>
    if c = sep then [] :: splitOnChar sep cs
    else
      match splitOnChar sep cs with
      | [] => [[c]]
      | h :: t => (c :: h) :: t

/-- `change_token(token)` together with its effect on `other_count`
(`_reset_other_count` is inlined: it loads the previous account's entry,
sets the carry counter to its `Count` and returns its `Subject`).  `none`
models the exceptions: looking up a previous account that is not in the
dictionary (`None["Count"]`), a previous entry without a `"Subject"` key,
and `split("-")[1]` on a name without a dash. -/
def change_token (reg : Registry) (data : List Rec) (cnt : Int) (token : Str) :
    Option (Str × Int) :=
  if token ∈ referredAccounts ∧ data ≠ [] then
    match data.getLast? with
    | none => none
    | some lastRec =>
      let lastAccount := lastRec.account
      if lastCharAmbig lastAccount = false then
        match lookupR reg lastAccount with
        | none => none
        | some d =>
          match d.subject with
          | none => none
          | some subj => some (subj ++ ['-'] ++ token, (d.count : Int) - 1)
      else if cnt > 0 then
        match (splitOnChar '-' lastAccount).get? 1 with
        | none => none
        | some piece =>
          some ((if piece = token then lastAccount else token), cnt - 1)
      else some (token, cnt)
  else some (token, cnt)

/-! ## Record assembly: `_find_usable_dates` and `_append_data` -/

/-- `use_dates` entries not already recorded in the token's consumed
periods, in order. -/
def usableAgainst (sp : List PeriodVal) (uds : List PeriodVal) : List PeriodVal :=
  uds.filter fun d => decide (¬ d ∈ sp)

/-- `_find_usable_dates(token)`; `none` models the `KeyError` when the token
is absent or its entry has no `"Period"` list. -/
def find_usable_dates (st : ParserSt) (token : Str) : Option (List PeriodVal) :=
  match lookupR st.subjects_dict token with
  | none => none
  | some e =>
    match e.period with
    | none => none
    | some sp => some (usableAgainst sp st.use_dates)

/-- Python truthiness of `fourth_grade_account` (either `None` or a list). -/
def fourthFalsy : Option (List Str) → Bool
  | none => true
  | some [] => true
  | some (_ :: _) => false

/-- `remove_duplicated_account`. -/
def remove_duplicated_account : Option (List Str) → Option Str
  | none => none
  | some [] => none
  | some (a :: _) => some a

/-- `_append_data(token, nums)`.  Branch one (no pending fourth-grade
accounts, or all identical): assert that usable dates and numbers have
equal length (`AssertionError`, the spec's `DataMismatchError`), then zip
them into records, appending each date to the token's consumed periods.
Branch two (multiple distinct pending sub-accounts): take the first usable
date (`IndexError` when there is none), record it once, and zip the numbers
against the sub-account list.  `none` models every raised exception. -/
def append_data (st : ParserSt) (token : Str) (nums : List Value) :
    Option ParserSt :=
  match lookupR st.subjects_dict token with
  | none => none
  | some e =>
    match e.period with
    | none => none
    | some sp =>
      let use_dates := usableAgainst sp st.use_dates
      let ft := st.fourth_grade_account
      if fourthFalsy ft || ((ft.getD []).dedup.length == 1) then
        if use_dates.length = nums.length then
          let account := remove_duplicated_account ft
          let recs := List.zipWith
            (fun d n => Rec.mk token account d n st.category st.subject_annot st.cur_subject)
            use_dates nums
          some { st with
            data := st.data ++ recs,
            subjects_dict := modifyR st.subjects_dict token
              (fun e0 => { e0 with period := some (sp ++ use_dates) }) }
        else none
      else
        match use_dates with
        | [] => none
        | d :: _ =>
          let recs := (nums.zip (ft.getD [])).map
            (fun p => Rec.mk token (some p.2) d p.1 st.category st.subject_annot st.cur_subject)
          some { st with
            data := st.data ++ recs,
            subjects_dict := modifyR st.subjects_dict token
              (fun e0 => { e0 with period := some (sp ++ [d]) }) }

/-! ## Category / fourth-grade disambiguation (`parse` lines 134-139,
`_is_category_token`, `_are_all_tokens_subjects`) -/

/-- `all(token in self.subjects_dict for token in tokens)` over an already
tokenised list (the bookkeeping `"main subjects"` key of the Python dict is
modelled separately and is never a CJK token). -/
def areAllTokensSubjects (reg : Registry) (tokens : List Str) : Bool :=
  tokens.all fun t => (lookupR reg t).isSome

/-- `_is_category_token(tokens)`: the usable-date count of the first token
is computed first (so its `KeyError` fires even when fourth-grade accounts
are pending), then compared with the token count only when no fourth-grade
accounts are pending. -/
def is_category_token (st : ParserSt) (tokens : List Str) : Option Bool :=
  match tokens with
  | [] => none
  | t :: _ =>
    match find_usable_dates st t with
    | none => none
    | some tud =>
      if fourthFalsy st.fourth_grade_account then
        some (decide (tud.length > tokens.length))
      else some false

/-- The disambiguation step of `parse`: when every token is a registry key
and the token list is nonempty, either set the category to the first token,
or collapse `use_dates` to its final entry (`use_dates[-1]`, an `IndexError`
when empty) and store the tokens as the fourth-grade account list. -/
def classifyLine (st : ParserSt) (tokens : List Str) : Option ParserSt :=
  if areAllTokensSubjects st.subjects_dict tokens ∧ tokens ≠ [] then
    match tokens with
    | [] => some st
    | t :: _ =>
      match is_category_token st tokens with
      | none => none
      | some true => some { st with category := some t }
      | some false =>
        match st.use_dates.getLast? with
        | none => none
        | some ld =>
          some { st with use_dates := [ld], fourth_grade_account := some tokens }
  else some st

/-! ## `_process_tokens` (one token) -/

def categoryTruthy : Option Str → Bool
  | none => false
  | some [] => false
  | some (_ :: _) => true

def fourthTruthy (o : Option (List Str)) : Bool := !fourthFalsy o

/-- `_reset_fourth_grade_account_and_category(token)`: when records exist
and both category and fourth-grade list are truthy, compare the owning
subjects of the previous record's account and of the current token; on a
mismatch set both context fields to `None`.  `none` models the `KeyError`
on an entry without a `"Subject"` key. -/
def reset_fourth_and_category (st : ParserSt) (token : Str) : Option ParserSt :=
  if st.data = [] ∨ ¬(categoryTruthy st.category ∧ fourthTruthy st.fourth_grade_account) then
    some st
  else
    match st.data.getLast? with
    | none => none
    | some r =>
      match lookupR st.subjects_dict r.account, lookupR st.subjects_dict token with
      | some dl, some dt =>
        (match dl.subject, dt.subject with
         | some s1, some s2 =>
           if ¬ s1 = s2 then
             some { st with fourth_grade_account := none, category := none }
           else some st
         | _, _ => none)
      | _, _ => none

/-- One iteration of the `_process_tokens` loop.  The token is first put
through `change_token`; when the (possibly rewritten) token has a registry
entry and the cleaned sentence contains a digit, the context reset runs,
the entry's count is incremented and `_append_data` emits records.  The
extracted numbers are passed in as a parameter because their extraction
goes through the external segmentation service (`remove_token` uses
`jieba`); the crash this file reasons about happens independently of them. -/
def process_token (st : ParserSt) (sentence : Str) (nums : List Value)
    (token0 : Str) : Option ParserSt :=
  match change_token st.subjects_dict st.data st.other_count token0 with
  | none => none
  | some (token, cnt) =>
    let st1 := { st with other_count := cnt }
    if (lookupR st1.subjects_dict token).isSome && sentence.any isDig then
      match reset_fourth_and_category st1 token with
      | none => none
      | some st2 =>
        let st3 := { st2 with
          subjects_dict := modifyR st2.subjects_dict token
            (fun e => { e with count := e.count + 1 }) }
        append_data st3 token nums
    else some st1

/-! ## New-subject detection and state reset
(`_is_new_subject`, `_initialize_params_if_new_subject`) -/

def isCjkNumeral (c : Char) : Bool := (str "一二三四五六七八九十").contains c

/-- `re.sub(SUBJECT_PATTERN, "", sentence)` with
`SUBJECT_PATTERN = \([一二三四五六七八九十]+\)`. -/
def removeSubjectNumsAux : Nat → Str → Str
  | 0, s => s
  | _ + 1, [] => []
  | fuel + 1, c :: cs =>
    if c = '(' then
      match cs.takeWhile isCjkNumeral with
      | [] => c :: removeSubjectNumsAux fuel cs
      | _ :: _ =>
        match cs.dropWhile isCjkNumeral with
        | ')' :: r => removeSubjectNumsAux fuel r
        | _ => c :: removeSubjectNumsAux fuel cs
    else c :: removeSubjectNumsAux fuel cs

def removeSubjectNums (s : Str) : Str := removeSubjectNumsAux s.length s

/-- The loop `for subject in self.duplicated_accounts:
`self.subjects_dict[subject]["Period"] = []` — it assigns a fresh empty
`"Period"` list on each of the seven base names (creating the key on the
count-only entries); `none` models the `KeyError` on a missing base key. -/
def resetPeriods : List Str → Registry → Option Registry
  | [], r => some r
  | k :: ks, r =>
    match lookupR r k with
    | none => none
    | some _ => resetPeriods ks (modifyR r k fun e => { e with period := some [] })

/-- `_initialize_params_if_new_subject`. -/
def init_params_if_new_subject (st : ParserSt) : Option ParserSt :=
  match resetPeriods duplicatedAccounts st.subjects_dict with
  | none => none
  | some reg =>
    some { st with
      other_count := 0,
      fourth_grade_account := some [],
      use_dates := [],
      last_append_date_idx := 0,
      category := none,
      last_sentence := [],
      remark := [],
      subjects_dict := reg }

/-- `_is_new_subject` followed (on success) by the reset, as
`_is_sentence_skippable` performs it: strip the parenthesised ideographic
numerals, test membership among the known main subjects, set
`_cur_subject`, and reinitialise the parser state.  Returns whether the
line was recognised together with the resulting state. -/
def newSubjectStep (st : ParserSt) (sentence : Str) : Option (Bool × ParserSt) :=
  let s' := removeSubjectNums sentence
  if s' ∈ st.main_subjects then
    match init_params_if_new_subject { st with cur_subject := s' } with
    | none => none
    | some st2 => some (true, st2)
  else some (false, st)

/-! ## `load_subjects_dict` -/

/-- The comprehension `{subject: {"Count": 0} for subject in DUPLICATED_CONTENT}`:
count-only entries without `"Period"`/`"Subject"` keys. -/
def baseRegistry : Registry :=
  duplicatedAccounts.map fun k => (k, ⟨0, none, none⟩)

def loadAux : List Str → Registry → List Str → Str → Registry × List Str
  | [], r, ms, _ => (r, ms)
  | t :: rest, r, ms, cur =>
    if t = [] then loadAux rest r ms cur
    else if t.head? = some '#' then
      loadAux rest r (ms ++ [t.drop 2]) (t.drop 2)
    else
      let key := if t ∈ referredAccounts then cur ++ ['-'] ++ t else t
      loadAux rest (insertR r key ⟨0, some [], some cur⟩) ms cur

/-- `load_subjects_dict` over the dictionary lines: `#`-lines introduce a
main subject (text from index 2 on), other nonempty lines store a child
entry, namespaced under the current main subject when the name is one of
the referred accounts.  Returns the registry and the main-subject names. -/
def load_subjects_dict (lines : List Str) : Registry × List Str :=
  loadAux lines baseRegistry [] []

/-! ## Concrete states used to instantiate the theorems -/

/-- A parser state with one full registry entry for `存貨`, three usable
dates and no pending fourth-grade accounts. -/
def c1St1 : ParserSt :=
  { subjects_dict := [(str "存貨", ⟨1, some [], some (str "資產")⟩)],
    main_subjects := [], data := [],
    use_dates := [.date ⟨2022, 12, 31⟩, .date ⟨2021, 12, 31⟩, .date ⟨2020, 12, 31⟩],
    category := none, fourth_grade_account := some [],
    other_count := 0, last_append_date_idx := 0, last_sentence := [],
    remark := [], cur_subject := str "資產", subject_annot := [] }

/-- Like `c1St1` but with one usable date and three distinct pending
fourth-grade accounts. -/
def c1St2 : ParserSt :=
  { c1St1 with
    use_dates := [.date ⟨2022, 12, 31⟩],
    fourth_grade_account := some [str "原料", str "物料", str "製成品"] }

/-- Branch-two state for the missing length check: three distinct pending
sub-accounts but only two extracted numbers. -/
def c3St : ParserSt :=
  { c1St1 with
    use_dates := [.date ⟨2022, 12, 31⟩],
    fourth_grade_account := some [str "原料", str "物料", str "製成品"] }

/-- Mismatch state for the checked branch: three usable dates, no pending
fourth-grade accounts, and only two numbers will be supplied. -/
def c3StA : ParserSt := c1St1

/-- State whose `use_dates` holds a newer date before an older one (the
descending per-line order) and whose pending fourth-grade accounts force
the header branch of the disambiguation. -/
def c4St : ParserSt :=
  { c1St1 with
    subjects_dict := [(str "存貨", ⟨0, some [], some (str "資產")⟩)],
    fourth_grade_account := some [str "製成品"],
    use_dates := [.date ⟨2022, 12, 31⟩, .date ⟨2021, 12, 31⟩] }

/-- Registry for the carry-over counterexample: a concrete account whose
name ends in the character `額` without ending in any referred-account
name. -/
def c5Reg : Registry := [(str "貸款餘額", ⟨3, some [], some (str "負債")⟩)]

def c5Rec : Rec := ⟨str "貸款餘額", none, .label [], .num 0, none, [], []⟩

/-- Registry and record for the carry-over witness: concrete account
`土地` (last character not ambiguous) with count 3 under subject
`不動產`. -/
def c5wReg : Registry := [(str "土地", ⟨3, some [], some (str "不動產")⟩)]

def c5wRec : Rec := ⟨str "土地", none, .label [], .num 0, none, [], []⟩

def c6Text : Str := str "、至3月31"

def c6Consume : Str := str "至3月31"

/-- State for the reset theorems: the loaded base entries plus a
namespaced ambiguous entry with a consumed period, and `存貨` as a known
main subject. -/
def c9St : ParserSt :=
  { c1St1 with
    subjects_dict :=
      baseRegistry ++ [(str "存貨-其他", ⟨2, some [.date ⟨2022, 3, 31⟩], some (str "存貨")⟩)],
    main_subjects := [str "存貨"],
    use_dates := [.date ⟨2022, 3, 31⟩],
    category := some (str "成本"),
    fourth_grade_account := some [str "原料"],
    other_count := 5, remark := str "1.備註", last_sentence := str "存" }

/-- The registry loaded from a two-line dictionary, used by the
uninitialised-ambiguous-token theorems. -/
def c10Loaded : Registry × List Str := load_subjects_dict [str "# 存貨", str "商品"]

def c10St : ParserSt :=
  { subjects_dict := c10Loaded.1, main_subjects := c10Loaded.2,
    data := [], use_dates := [], category := none, fourth_grade_account := some [],
    other_count := 0, last_append_date_idx := 0, last_sentence := [], remark := [],
    cur_subject := [], subject_annot := [] }

/-- A record whose account is the qualified ambiguous key under `不動產`. -/
def c5wRecQ : Rec := ⟨str "不動產-其他", none, .label [], .num 0, none, [], []⟩

/-- The state produced by recognising `存貨` as a new subject from `c9St`. -/
def c9StReset : ParserSt :=
  { c9St with
    other_count := 0, fourth_grade_account := some [], use_dates := [],
    last_append_date_idx := 0, category := none, last_sentence := [],
    remark := [], cur_subject := str "存貨",
    subjects_dict := (resetPeriods duplicatedAccounts c9St.subjects_dict).getD [] }

/-! ## Order lemmas for the descending sort -/

theorem dateLeB_total (a b : Date) : dateLeB a b = true ∨ dateLeB b a = true := by
  simp only [dateLeB, Bool.or_eq_true, Bool.and_eq_true, decide_eq_true_eq]
  omega

theorem dateLeB_trans {a b c : Date} (h1 : dateLeB a b = true) (h2 : dateLeB b c = true) :
    dateLeB a c = true := by
  simp only [dateLeB, Bool.or_eq_true, Bool.and_eq_true, decide_eq_true_eq] at h1 h2 ⊢
  omega

theorem strLeB_total (a : Str) : ∀ b, strLeB a b = true ∨ strLeB b a = true := by
  induction a with
  | nil => intro b; exact Or.inl rfl
  | cons x xs ih =>
    intro b
    cases b with
    | nil => exact Or.inr rfl
    | cons y ys =>
      simp only [strLeB]
      by_cases h1 : x.toNat < y.toNat
      · simp [h1]
      · by_cases h2 : y.toNat < x.toNat
        · simp [h1, h2]
        · simpa [h1, h2] using ih ys

theorem strLeB_cons_elim {x y : Char} {xs ys : Str}
    (h : strLeB (x :: xs) (y :: ys) = true) :
    x.toNat < y.toNat ∨ (x.toNat = y.toNat ∧ strLeB xs ys = true) := by
  simp only [strLeB] at h
  split at h
  · left; assumption
  · split at h
    · exact absurd h (by simp)
    · exact Or.inr ⟨by omega, h⟩

theorem strLeB_trans {a : Str} : ∀ {b c : Str},
    strLeB a b = true → strLeB b c = true → strLeB a c = true := by
  induction a with
  | nil => intro b c _ _; rfl
  | cons x xs ih =>
    intro b c h1 h2
    cases b with
    | nil => simp [strLeB] at h1
    | cons y ys =>
      cases c with
      | nil => simp [strLeB] at h2
      | cons z zs =>
        rcases strLeB_cons_elim h1 with hxy | ⟨hxy, t1⟩ <;>
          rcases strLeB_cons_elim h2 with hyz | ⟨hyz, t2⟩ <;>
          simp only [strLeB]
        · simp [show x.toNat < z.toNat by omega]
        · simp [show x.toNat < z.toNat by omega]
        · simp [show x.toNat < z.toNat by omega]
        · have hxz : x.toNat = z.toNat := by omega
          simp only [show ¬ x.toNat < z.toNat by omega, if_false,
            show ¬ z.toNat < x.toNat by omega]
          exact ih t1 t2

theorem pvGeB_trans {a b c : PeriodVal} (h1 : pvGeB a b = true) (h2 : pvGeB b c = true) :
    pvGeB a c = true := by
  cases a <;> cases b <;> cases c <;> simp only [pvGeB] at h1 h2 ⊢
  all_goals first
    | exact dateLeB_trans h2 h1
    | exact strLeB_trans h2 h1
    | exact (Bool.false_ne_true h1).elim
    | exact (Bool.false_ne_true h2).elim

theorem pvGeB_total_kind {a b : PeriodVal} (h : a.isDate = b.isDate) :
    pvGeB a b = true ∨ pvGeB b a = true := by
  cases a <;> cases b <;> simp only [PeriodVal.isDate, pvGeB] at h ⊢
  · exact dateLeB_total _ _
  · exact absurd h (by simp)
  · exact absurd h (by simp)
  · exact strLeB_total _ _

theorem insertDesc_perm (x : PeriodVal) (l : List PeriodVal) :
    (insertDesc x l).Perm (x :: l) := by
  induction l with
  | nil => exact List.Perm.refl _
  | cons y ys ih =>
    simp only [insertDesc]
    split
    · exact List.Perm.refl _
    · exact (ih.cons y).trans (List.Perm.swap x y ys)

theorem sortDesc_perm (l : List PeriodVal) : (sortDesc l).Perm l := by
  induction l with
  | nil => exact List.Perm.refl _
  | cons x xs ih => exact (insertDesc_perm x (sortDesc xs)).trans (ih.cons x)

theorem mem_insertDesc {a x : PeriodVal} {l : List PeriodVal} :
    a ∈ insertDesc x l ↔ a = x ∨ a ∈ l := by
  rw [(insertDesc_perm x l).mem_iff]
  simp

theorem pairwise_insertDesc {k : Bool} {x : PeriodVal} {l : List PeriodVal}
    (hx : x.isDate = k) (hl : ∀ v ∈ l, v.isDate = k)
    (h : l.Pairwise (fun a b => pvGeB a b = true)) :
    (insertDesc x l).Pairwise (fun a b => pvGeB a b = true) := by
  induction l with
  | nil => simp [insertDesc]
  | cons y ys ih =>
    rcases List.pairwise_cons.mp h with ⟨hy, hys⟩
    simp only [insertDesc]
    by_cases hxy : pvGeB x y = true
    · rw [if_pos hxy]
      refine List.pairwise_cons.mpr ⟨?_, h⟩
      intro z hz
      rcases List.mem_cons.mp hz with rfl | hz
      · exact hxy
      · exact pvGeB_trans hxy (hy z hz)
    · rw [if_neg hxy]
      have hyx : pvGeB y x = true := by
        rcases pvGeB_total_kind (show x.isDate = y.isDate from
          hx.trans (hl y (by simp)).symm) with h' | h'
        · exact absurd h' hxy
        · exact h'
      refine List.pairwise_cons.mpr ⟨?_, ih (fun v hv => hl v (by simp [hv])) hys⟩
      intro z hz
      rcases mem_insertDesc.mp hz with rfl | hz
      · exact hyx
      · exact hy z hz

theorem pairwise_sortDesc {k : Bool} {l : List PeriodVal}
    (hl : ∀ v ∈ l, v.isDate = k) :
    (sortDesc l).Pairwise (fun a b => pvGeB a b = true) := by
  induction l with
  | nil => simp [sortDesc]
  | cons x xs ih =>
    simp only [sortDesc]
    refine pairwise_insertDesc (hl x (by simp)) ?_ (ih (fun v hv => hl v (by simp [hv])))
    intro v hv
    exact hl v (by simp [(sortDesc_perm xs).mem_iff.mp hv])

theorem sameKind_exists {l : List PeriodVal} (h : sameKind l = true) :
    ∃ k, ∀ v ∈ l, v.isDate = k := by
  simp only [sameKind, Bool.or_eq_true, List.all_eq_true] at h
  rcases h with h | h
  · exact ⟨true, fun v hv => h v hv⟩
  · exact ⟨false, fun v hv => by simpa using h v hv⟩

/-! ## Matcher and transform lemmas -/

theorem matchPeriodAt_digits {cs m r : Str} (h : matchPeriodAt cs = some (m, r)) :
    ∃ a b c rest, m = a :: b :: c :: rest ∧
      isDig a = true ∧ isDig b = true ∧ isDig c = true := by
  match cs with
  | [] => simp [matchPeriodAt] at h
  | [a] => simp [matchPeriodAt] at h
  | [a, b] => simp [matchPeriodAt] at h
  | [a, b, c] => simp [matchPeriodAt] at h
  | a :: b :: c :: d :: rest =>
    simp only [matchPeriodAt] at h
    split at h
    · rename_i hcond
      simp only [Bool.and_eq_true] at hcond
      obtain ⟨⟨⟨ha, hb⟩, hc⟩, -⟩ := hcond
      revert h
      cases hmp : matchMonthPart rest with
      | none => intro h; dsimp only at h; exact Option.noConfusion h
      | some p1 =>
        obtain ⟨mp, r1⟩ := p1
        intro h
        dsimp only at h
        cases hdd : matchDayDigits r1 with
        | none =>
          rw [hdd] at h
          dsimp only at h
          exact Option.noConfusion h
        | some p2 =>
          obtain ⟨dd, r2⟩ := p2
          rw [hdd] at h
          dsimp only at h
          cases htl : matchOptTail r2 with
          | none =>
            rw [htl] at h
            dsimp only at h
            injection h with h'
            injection h' with hm hr
            refine ⟨a, b, c, d :: (mp ++ dd), ?_, ha, hb, hc⟩
            rw [← hm]
            simp
          | some p3 =>
            obtain ⟨tl, r3⟩ := p3
            rw [htl] at h
            dsimp only at h
            injection h with h'
            injection h' with hm hr
            refine ⟨a, b, c, d :: (mp ++ dd ++ tl), ?_, ha, hb, hc⟩
            rw [← hm]
            simp
    · exact Option.noConfusion h

theorem transform_date_unmapped {s : Str}
    (hd : ∃ a b c rest, s = a :: b :: c :: rest ∧
      isDig a = true ∧ isDig b = true ∧ isDig c = true)
    (hr : s.any (fun ch => ch = '至' || ch = '~') = true)
    (hq : lookupQ quaterMap (s.drop 4) = none) :
    transform_date s = none := by
  rcases hd with ⟨a, b, c, rest, rfl, ha, hb, hc⟩
  simp only [transform_date, ha, hb, hc, Bool.and_self, if_pos, hr, if_true, hq]

theorem transformAll_none {ds : List Str} {d : Str} (hd : d ∈ ds)
    (h : transform_date d = none) : transformAll ds = none := by
  induction ds with
  | nil => cases hd
  | cons e es ih =>
    rcases List.mem_cons.mp hd with rfl | hd'
    · simp [transformAll, h]
    · simp only [transformAll]
      cases transform_date e with
      | none => rfl
      | some v => rw [ih hd']

theorem mem_finditer_digits {fuel : Nat} {cs d : Str}
    (h : d ∈ finditerAux fuel cs) :
    ∃ a b c rest, d = a :: b :: c :: rest ∧
      isDig a = true ∧ isDig b = true ∧ isDig c = true := by
  induction fuel generalizing cs with
  | zero => simp [finditerAux] at h
  | succ n ih =>
    cases cs with
    | nil => simp [finditerAux] at h
    | cons x xs =>
      simp only [finditerAux] at h
      revert h
      cases hm : matchPeriodAt (x :: xs) with
      | none => exact fun h => ih h
      | some p =>
        obtain ⟨m, rest⟩ := p
        intro h
        rcases List.mem_cons.mp h with rfl | h'
        · exact matchPeriodAt_digits hm
        · exact ih h'

/-! ## Registry lemmas -/

theorem lookupR_modifyR_self (r : Registry) (k : Str) (f : Entry → Entry) :
    lookupR (modifyR r k f) k = (lookupR r k).map f := by
  induction r with
  | nil => rfl
  | cons p r ih =>
    obtain ⟨k0, e0⟩ := p
    by_cases hk : k0 = k
    · subst hk
      simp [modifyR, lookupR]
    · simp [modifyR, lookupR, hk, ih]

theorem lookupR_modifyR_ne (r : Registry) {k k' : Str} (f : Entry → Entry)
    (h : k' ≠ k) : lookupR (modifyR r k f) k' = lookupR r k' := by
  induction r with
  | nil => rfl
  | cons p r ih =>
    obtain ⟨k0, e0⟩ := p
    by_cases hk : k0 = k
    · subst hk
      simp only [modifyR, if_pos rfl, lookupR]
      rw [if_neg (fun hh : k0 = k' => h hh.symm), if_neg (fun hh : k0 = k' => h hh.symm)]
    · simp only [modifyR, if_neg hk, lookupR]
      by_cases hk' : k0 = k'
      · rw [if_pos hk', if_pos hk']
      · rw [if_neg hk', if_neg hk', ih]

theorem resetPeriods_frame {ks : List Str} {r r' : Registry}
    (h : resetPeriods ks r = some r') :
    ∀ k, k ∉ ks → lookupR r' k = lookupR r k := by
  induction ks generalizing r with
  | nil =>
    intro k _
    simp only [resetPeriods] at h
    cases h
    rfl
  | cons k0 ks ih =>
    intro k hk
    simp only [resetPeriods] at h
    revert h
    cases hl : lookupR r k0 with
    | none => intro h; cases h
    | some e =>
      intro h
      have hne : k ≠ k0 := fun hh => hk (hh ▸ List.mem_cons_self k0 ks)
      have := ih h k (fun hh => hk (List.mem_cons_of_mem _ hh))
      rw [this, lookupR_modifyR_ne _ _ hne]

theorem resetPeriods_resets {ks : List Str} {r r' : Registry}
    (h : resetPeriods ks r = some r') :
    ∀ k ∈ ks, ∃ e', lookupR r' k = some e' ∧ e'.period = some [] := by
  induction ks generalizing r with
  | nil => intro k hk; cases hk
  | cons k0 ks ih =>
    intro k hk
    simp only [resetPeriods] at h
    revert h
    cases hl : lookupR r k0 with
    | none => intro h; cases h
    | some e =>
      intro h
      rcases List.mem_cons.mp hk with rfl | hk'
      · by_cases hmem : k ∈ ks
        · exact ih h k hmem
        · have hfr := resetPeriods_frame h k hmem
          rw [hfr, lookupR_modifyR_self, hl]
          exact ⟨_, rfl, rfl⟩
      · exact ih h k hk'

/-! ## String lemmas for the carry-over scenario -/

theorem splitOnChar_no_sep {sep : Char} {l : Str} (h : sep ∉ l) :
    splitOnChar sep l = [l] := by
  induction l with
  | nil => rfl
  | cons c cs ih =>
    have hc : ¬ c = sep := fun hh => h (hh ▸ List.mem_cons_self c cs)
    simp only [splitOnChar, if_neg hc]
    rw [ih (fun hh => h (List.mem_cons_of_mem _ hh))]

theorem splitOnChar_append_sep {sep : Char} (x y : Str) (hx : sep ∉ x) :
    splitOnChar sep (x ++ sep :: y) = x :: splitOnChar sep y := by
  induction x with
  | nil => simp [splitOnChar]
  | cons c cs ih =>
    have hc : ¬ c = sep := fun hh => hx (hh ▸ List.mem_cons_self c cs)
    have ih' := ih (fun hh => hx (List.mem_cons_of_mem _ hh))
    simp only [List.cons_append, splitOnChar, if_neg hc, List.append_eq]
    rw [ih']

theorem getLast?_append_single {α : Type} (l : List α) (a : α) :
    (l ++ [a]).getLast? = some a := by
  simp [List.getLast?_concat]

theorem lastCharAmbig_qualified (x : Str) :
    lastCharAmbig (x ++ ['-'] ++ str "其他") = true := by
  have h1 : str "其他" = ['其', '他'] := by decide
  have h2 : x ++ ['-'] ++ str "其他" = (x ++ ['-', '其']) ++ ['他'] := by
    rw [h1]; simp
  rw [h2, lastCharAmbig, getLast?_append_single]
  decide

theorem append_data_no_period (st : ParserSt) (token : Str) (nums : List Value)
    (e : Entry) (hl : lookupR st.subjects_dict token = some e) (hp : e.period = none) :
    append_data st token nums = none := by
  unfold append_data
  rw [hl]
  dsimp only
  rw [hp]

/-! ## Claim theorems -/

/-- C2 counterexample: on the exact strings of the claim, which still carry
the day marker `日`, `transform_date` raises instead of producing the
claimed values — the range string `111年1月1日至3月31日` has `s[4:]` equal to
`1月1日至3月31日`, which is not a key of the quarter map (`TypeError` from
concatenating `None`), and `111年8月1日` leaves a trailing `日` that
`strptime` rejects (`ValueError`). -/
theorem C2_counterexample :
    transform_date (str "111年1月1日至3月31日") = none ∧
    transform_date (str "111年8月1日") = none ∧
    ¬ transform_date (str "111年1月1日至3月31日") = some (.label (str "2022-Q1")) ∧
    ¬ transform_date (str "111年8月1日") = some (.date ⟨2022, 8, 1⟩) := by
  decide

/-- C2: date transform round-trip on the day-marker-free strings that the
pipeline actually passes to `transform_date` (line cleaning strips `日`
before period matching): `111年1月1至3月31` maps to the fiscal label
`2022-Q1` and `111年8月1` maps to the calendar date 2022-08-01. -/
theorem C2_date_transform :
    transform_date (str "111年1月1至3月31") = some (.label (str "2022-Q1")) ∧
    transform_date (str "111年8月1") = some (.date ⟨2022, 8, 1⟩) := by
  decide

/-- C6: the line cleaner is not deterministic in the claimed sense.  Both
final calls below clean the same text `、至3月31` with the same pending
consume text `至3月31`; the first call (fresh cache) strips the whole line,
while the second call (the cache already holds the result of an earlier
call made with no pending consume text) returns the stale cached text.
The `lru_cache` key is the sentence text alone, so the one-shot consume
state is ignored on a hit — the output depends on call history. -/
theorem C6_cached_cleaner_ignores_consume :
    (cleanCached ⟨[], c6Consume⟩ c6Text).1 = [] ∧
    (cleanCached ⟨((cleanCached ⟨[], []⟩ c6Text).2).cache, c6Consume⟩ c6Text).1
        = str "至3月31" ∧
    ¬ (cleanCached ⟨[], c6Consume⟩ c6Text).1
        = (cleanCached ⟨((cleanCached ⟨[], []⟩ c6Text).2).cache, c6Consume⟩ c6Text).1 := by
  decide

/-- C7: a recognised range-form period substring whose month/day portion
(`s[4:]`) is not a key of the quarter map is not silently dropped — the
`str + None` concatenation raises, so the whole extraction step aborts
(`none`) and no periods are produced for the line. -/
theorem C7_unmapped_range_aborts (s : Str) (use_dates : List PeriodVal) (d : Str)
    (hmem : d ∈ extractPeriods s)
    (hr : d.any (fun ch => ch = '至' || ch = '~') = true)
    (hq : lookupQ quaterMap (d.drop 4) = none) :
    reformExtract s use_dates = none := by
  have hmem' : d ∈ finditerAux s.length s := hmem
  have hd := mem_finditer_digits hmem'
  have ht := transform_date_unmapped hd hr hq
  have hall := transformAll_none hmem ht
  simp [reformExtract, hall]

/-- C7 witness: the concrete line `111年1月2至3月31` contains one recognised
range-form period whose `s[4:]` misses the map; the extraction aborts. -/
theorem C7_witness :
    (str "111年1月2至3月31") ∈ extractPeriods (str "111年1月2至3月31") ∧
    (str "111年1月2至3月31").any (fun ch => ch = '至' || ch = '~') = true ∧
    lookupQ quaterMap ((str "111年1月2至3月31").drop 4) = none ∧
    reformExtract (str "111年1月2至3月31") [] = none :=
  ⟨by decide, by decide, by decide,
    C7_unmapped_range_aborts _ [] (str "111年1月2至3月31")
      (by decide) (by decide) (by decide)⟩

/-- C7 counterexample: on the concrete line `111年1月2至6月30` — an
unmapped range — the extraction yields an error (`none`) rather than
"no period value, no error, processing continues" as the claim states. -/
theorem C7_counterexample :
    (str "111年1月2至6月30") ∈ extractPeriods (str "111年1月2至6月30") ∧
    lookupQ quaterMap ((str "111年1月2至6月30").drop 4) = none ∧
    reformExtract (str "111年1月2至6月30") [] = none := by
  decide

/-- C8: when all periods found on a line transform to the same kind (all
exact dates, or all labels), the extraction succeeds: the transformed
periods are sorted descending (pairwise `pvGeB`, a permutation of the
transformed list) and appended to `use_dates`.  The mixed-kind case is
refuted separately: Python cannot compare a `datetime` with a `str`. -/
theorem C8_periods_sorted_appended (s : Str) (use_dates ts : List PeriodVal)
    (ht : transformAll (extractPeriods s) = some ts)
    (hk : sameKind ts = true) :
    reformExtract s use_dates
        = some (removeDateStrs (extractPeriods s) s, use_dates ++ sortDesc ts) ∧
    (sortDesc ts).Pairwise (fun a b => pvGeB a b = true) ∧
    (sortDesc ts).Perm ts := by
  refine ⟨?_, ?_, sortDesc_perm ts⟩
  · simp [reformExtract, ht, sortDescO, hk]
  · rcases sameKind_exists hk with ⟨k, hall⟩
    exact pairwise_sortDesc hall

/-- C8 witness: a line with two exact-date periods; both are transformed,
sorted newest-first and appended. -/
theorem C8_witness :
    transformAll (extractPeriods (str "111年3月31及110年3月31"))
        = some [.date ⟨2022, 3, 31⟩, .date ⟨2021, 3, 31⟩] ∧
    sameKind [PeriodVal.date ⟨2022, 3, 31⟩, PeriodVal.date ⟨2021, 3, 31⟩] = true ∧
    reformExtract (str "111年3月31及110年3月31") []
        = some (removeDateStrs (extractPeriods (str "111年3月31及110年3月31"))
            (str "111年3月31及110年3月31"),
          [] ++ sortDesc [.date ⟨2022, 3, 31⟩, .date ⟨2021, 3, 31⟩]) :=
  ⟨by decide, by decide,
    (C8_periods_sorted_appended (str "111年3月31及110年3月31") []
      [.date ⟨2022, 3, 31⟩, .date ⟨2021, 3, 31⟩] (by decide) (by decide)).1⟩

/-- C8 counterexample: a line containing both a quarter range and an exact
date — the case the claim explicitly includes — aborts with an error:
`sorted` compares the transformed `datetime` with the transformed label
string and Python raises `TypeError`, so no periods are appended. -/
theorem C8_counterexample :
    extractPeriods (str "111年1月1至3月31及111年8月1")
        = [str "111年1月1至3月31", str "111年8月1"] ∧
    transformAll (extractPeriods (str "111年1月1至3月31及111年8月1"))
        = some [.label (str "2022-Q1"), .date ⟨2022, 8, 1⟩] ∧
    reformExtract (str "111年1月1至3月31及111年8月1") [] = none := by
  decide

/-- C4: category versus fourth-grade disambiguation.  For a nonempty,
all-registry-key token line: when no fourth-grade accounts are pending and
the first token's unconsumed-period count exceeds the token count, the
first token becomes the category (nothing else changes); otherwise
`use_dates` collapses to its final entry `use_dates[-1]` — the most
recently appended one, not necessarily the newest period — and the token
list becomes the pending fourth-grade accounts. -/
theorem C4_category_disambiguation :
    (∀ (st : ParserSt) (t : Str) (ts : List Str) (tud : List PeriodVal),
       areAllTokensSubjects st.subjects_dict (t :: ts) = true →
       find_usable_dates st t = some tud →
       fourthFalsy st.fourth_grade_account = true →
       tud.length > (t :: ts).length →
       classifyLine st (t :: ts) = some { st with category := some t }) ∧
    (∀ (st : ParserSt) (t : Str) (ts : List Str) (tud : List PeriodVal)
       (ld : PeriodVal),
       areAllTokensSubjects st.subjects_dict (t :: ts) = true →
       find_usable_dates st t = some tud →
       (fourthFalsy st.fourth_grade_account = false ∨ ¬ tud.length > (t :: ts).length) →
       st.use_dates.getLast? = some ld →
       classifyLine st (t :: ts)
           = some { st with use_dates := [ld], fourth_grade_account := some (t :: ts) }) := by
  constructor
  · intro st t ts tud hall hfind hfalsy hgt
    have hic : is_category_token st (t :: ts) = some true := by
      unfold is_category_token
      dsimp only
      rw [hfind]
      dsimp only
      rw [hfalsy]
      have hgt' : ts.length + 1 < tud.length := by simpa using hgt
      simp [hgt']
    unfold classifyLine
    rw [if_pos ⟨hall, List.cons_ne_nil t ts⟩]
    rw [hic]
  · intro st t ts tud ld hall hfind hcond hlast
    have hic : is_category_token st (t :: ts) = some false := by
      unfold is_category_token
      dsimp only
      rw [hfind]
      dsimp only
      rcases hcond with hf | hgt
      · rw [hf]
        simp
      · by_cases hf : fourthFalsy st.fourth_grade_account
        · rw [hf]
          have hgt' : tud.length ≤ ts.length + 1 := by simpa using hgt
          simp [Nat.not_lt.mpr hgt']
        · rw [Bool.not_eq_true] at hf
          rw [hf]
          simp
    unfold classifyLine
    rw [if_pos ⟨hall, List.cons_ne_nil t ts⟩]
    rw [hic]
    dsimp only
    rw [hlast]

/-- C4 witness: both branches at concrete inputs — a category line (three
unconsumed periods against one token, nothing pending), and a header line
(fourth-grade accounts already pending). -/
theorem C4_witness :
    (classifyLine c1St1 [str "存貨"]).isSome = true ∧
    (classifyLine c4St [str "存貨"]).isSome = true := by
  constructor
  · rw [C4_category_disambiguation.1 c1St1 (str "存貨") []
      [.date ⟨2022, 12, 31⟩, .date ⟨2021, 12, 31⟩, .date ⟨2020, 12, 31⟩]
      (by decide) (by decide) (by decide) (by decide)]
    rfl
  · rw [C4_category_disambiguation.2 c4St (str "存貨") []
      [.date ⟨2022, 12, 31⟩, .date ⟨2021, 12, 31⟩] (.date ⟨2021, 12, 31⟩)
      (by decide) (by decide) (Or.inl (by decide)) (by decide)]
    rfl

/-- C4 counterexample: on a state whose `use_dates` holds a newer date
before an older one (the descending per-line order), the collapse keeps the
final — older — entry, not the newest period as the claim states. -/
theorem C4_counterexample :
    (classifyLine c4St [str "存貨"]).map (fun s => s.use_dates)
        = some [.date ⟨2021, 12, 31⟩] ∧
    pvGeB (.date ⟨2022, 12, 31⟩) (.date ⟨2021, 12, 31⟩) = true ∧
    (PeriodVal.date ⟨2022, 12, 31⟩) ∈ c4St.use_dates ∧
    ¬ (classifyLine c4St [str "存貨"]).map (fun s => s.use_dates)
        = some [.date ⟨2022, 12, 31⟩] := by
  decide

/-- C5: ambiguous-account carry-over, for a prior concrete account whose
final character is outside the ambiguous character class (the code's actual
test, `[''.join(referred_accounts)]$`).  With registered count 3 under
subject `S` (dash-free), three consecutive `其他` classifications — each
followed by a record emission for the returned key — yield the qualified
`S-其他`, and the fourth, with the carry counter exhausted, returns the raw
token. -/
theorem C5_carry_over (reg : Registry) (S A : Str) (per : Option (List PeriodVal))
    (data0 : List Rec) (r0 r1 r2 r3 : Rec) (cnt0 : Int)
    (hlook : lookupR reg A = some ⟨3, per, some S⟩)
    (hA : lastCharAmbig A = false)
    (hS : '-' ∉ S)
    (hr0 : r0.account = A)
    (hr1 : r1.account = S ++ ['-'] ++ str "其他")
    (hr2 : r2.account = S ++ ['-'] ++ str "其他")
    (hr3 : r3.account = S ++ ['-'] ++ str "其他") :
    change_token reg (data0 ++ [r0]) cnt0 (str "其他")
        = some (S ++ ['-'] ++ str "其他", 2) ∧
    change_token reg (data0 ++ [r0, r1]) 2 (str "其他")
        = some (S ++ ['-'] ++ str "其他", 1) ∧
    change_token reg (data0 ++ [r0, r1, r2]) 1 (str "其他")
        = some (S ++ ['-'] ++ str "其他", 0) ∧
    change_token reg (data0 ++ [r0, r1, r2, r3]) 0 (str "其他")
        = some (str "其他", 0) := by
  have hmem : (str "其他") ∈ referredAccounts := by decide
  have hq : lastCharAmbig (S ++ ['-'] ++ str "其他") = true := lastCharAmbig_qualified S
  have hsplit : (splitOnChar '-' (S ++ ['-'] ++ str "其他")).get? 1 = some (str "其他") := by
    have h1 : S ++ ['-'] ++ str "其他" = S ++ '-' :: str "其他" := by simp
    rw [h1, splitOnChar_append_sep S (str "其他") hS,
      splitOnChar_no_sep (show '-' ∉ str "其他" by decide)]
    rfl
  refine ⟨?_, ?_, ?_, ?_⟩
  · unfold change_token
    rw [if_pos ⟨hmem, by simp⟩, getLast?_append_single]
    dsimp only
    rw [hr0, hA]
    simp only [if_pos rfl]
    rw [hlook]
    dsimp only
    norm_num
  · unfold change_token
    rw [if_pos ⟨hmem, by simp⟩,
      show data0 ++ [r0, r1] = (data0 ++ [r0]) ++ [r1] by simp,
      getLast?_append_single]
    dsimp only
    rw [hr1, hq]
    simp only [Bool.true_eq_false, if_false, if_pos (show (2:Int) > 0 by norm_num)]
    rw [hsplit]
    dsimp only
    simp
  · unfold change_token
    rw [if_pos ⟨hmem, by simp⟩,
      show data0 ++ [r0, r1, r2] = (data0 ++ [r0, r1]) ++ [r2] by simp,
      getLast?_append_single]
    dsimp only
    rw [hr2, hq]
    simp only [Bool.true_eq_false, if_false, if_pos (show (1:Int) > 0 by norm_num)]
    rw [hsplit]
    dsimp only
    simp
  · unfold change_token
    rw [if_pos ⟨hmem, by simp⟩,
      show data0 ++ [r0, r1, r2, r3] = (data0 ++ [r0, r1, r2]) ++ [r3] by simp,
      getLast?_append_single]
    dsimp only
    rw [hr3, hq]
    simp only [Bool.true_eq_false, if_false]
    rw [if_neg (show ¬ (0:Int) > 0 by norm_num)]

/-- C5 witness: the scenario at the concrete account `土地` (count 3,
subject `不動產`): three qualified classifications, then the raw token. -/
theorem C5_witness :
    change_token c5wReg ([] ++ [c5wRec]) 9 (str "其他")
        = some (str "不動產" ++ ['-'] ++ str "其他", 2) ∧
    change_token c5wReg ([] ++ [c5wRec, c5wRecQ]) 2 (str "其他")
        = some (str "不動產" ++ ['-'] ++ str "其他", 1) ∧
    change_token c5wReg ([] ++ [c5wRec, c5wRecQ, c5wRecQ]) 1 (str "其他")
        = some (str "不動產" ++ ['-'] ++ str "其他", 0) ∧
    change_token c5wReg ([] ++ [c5wRec, c5wRecQ, c5wRecQ, c5wRecQ]) 0 (str "其他")
        = some (str "其他", 0) :=
  C5_carry_over c5wReg (str "不動產") (str "土地") (some []) [] c5wRec c5wRecQ c5wRecQ c5wRecQ 9
    (by decide) (by decide) (by decide) rfl (by decide) (by decide) (by decide)

/-- C5 counterexample: the prior account `貸款餘額` is concrete — it does
not end in any ambiguous account name — yet its final character `額` lies
in the code's character class, so the very first `其他` classification
falls into the carry branch with an exhausted counter and returns the raw
token instead of the qualified `負債-其他` the claim requires. -/
theorem C5_counterexample :
    (referredAccounts.all fun n => ! List.isSuffixOf n (str "貸款餘額")) = true ∧
    change_token c5Reg [c5Rec] 0 (str "其他") = some (str "其他", 0) ∧
    ¬ change_token c5Reg [c5Rec] 0 (str "其他")
        = some (str "負債" ++ ['-'] ++ str "其他", 2) := by
  decide

/-- C9: recognising a cleaned line as a known main-subject name resets the
parser state — `category`, `pendingFourthGradeAccounts`, `use_dates`, the
carry counter, the remark and accumulation buffers — and re-creates an
empty `"Period"` list on each of the seven global base-name registry
entries (`DUPLICATED_CONTENT`); every other registry key, including the
namespaced per-subject ambiguous entries, is left untouched. -/
theorem C9_new_subject_reset (st : ParserSt) (sentence : Str) (st' : ParserSt)
    (h : newSubjectStep st sentence = some (true, st')) :
    st'.category = none ∧ st'.fourth_grade_account = some [] ∧
    st'.use_dates = [] ∧ st'.other_count = 0 ∧
    st'.remark = [] ∧ st'.last_sentence = [] ∧
    (∀ k ∈ duplicatedAccounts,
      ∃ e', lookupR st'.subjects_dict k = some e' ∧ e'.period = some []) ∧
    (∀ k, k ∉ duplicatedAccounts →
      lookupR st'.subjects_dict k = lookupR st.subjects_dict k) := by
  unfold newSubjectStep at h
  dsimp only at h
  split at h
  · revert h
    cases hinit : init_params_if_new_subject
        { st with cur_subject := removeSubjectNums sentence } with
    | none => intro h; exact Option.noConfusion h
    | some st2 =>
      intro h
      injection h with h'
      injection h' with hb hst
      subst hst
      unfold init_params_if_new_subject at hinit
      revert hinit
      have hproj : ({ st with cur_subject := removeSubjectNums sentence } : ParserSt).subjects_dict
          = st.subjects_dict := rfl
      rw [hproj]
      cases hres : resetPeriods duplicatedAccounts st.subjects_dict with
      | none => intro hinit; exact Option.noConfusion hinit
      | some reg =>
        intro hinit
        injection hinit with h2
        subst h2
        refine ⟨rfl, rfl, rfl, rfl, rfl, rfl, ?_, ?_⟩
        · intro k hk
          exact resetPeriods_resets hres k hk
        · intro k hk
          exact resetPeriods_frame hres k hk
  · injection h with h'
    injection h' with hb _
    exact Bool.noConfusion hb

/-- C9 witness: recognising `存貨` from `c9St` clears the context fields,
resets the base entry `成本`, and leaves `存貨-其他` untouched. -/
theorem C9_witness :
    c9StReset.category = none ∧ c9StReset.use_dates = [] ∧
    c9StReset.fourth_grade_account = some [] ∧
    (lookupR c9StReset.subjects_dict (str "成本")).map (fun e => e.period)
        = some (some []) ∧
    lookupR c9StReset.subjects_dict (str "存貨-其他")
        = lookupR c9St.subjects_dict (str "存貨-其他") := by
  have h := C9_new_subject_reset c9St (str "存貨") c9StReset (by decide)
  refine ⟨h.1, h.2.2.1, h.2.1, ?_, h.2.2.2.2.2.2.2 (str "存貨-其他") (by decide)⟩
  obtain ⟨e', he, hp⟩ := h.2.2.2.2.2.2.1 (str "成本") (by decide)
  rw [he]
  simp [hp]

/-- C9 counterexample: the namespaced ambiguous entry `存貨-其他` keeps its
consumed period across the reset — only the seven global base-name entries
are reset — refuting the claim that every ambiguous account entry's
consumed-period list is cleared. -/
theorem C9_counterexample :
    (newSubjectStep c9St (str "存貨")).map (fun p => p.1) = some true ∧
    (newSubjectStep c9St (str "存貨")).map
        (fun p => lookupR p.2.subjects_dict (str "存貨-其他"))
      = some (some ⟨2, some [.date ⟨2022, 3, 31⟩], some (str "存貨")⟩) ∧
    ¬ (newSubjectStep c9St (str "存貨")).map
        (fun p => (lookupR p.2.subjects_dict (str "存貨-其他")).map (fun e => e.period))
      = some (some (some [])) := by
  decide

/-- C10: classifying an ambiguous base-name token with no record yet emitted
leaves it unqualified; the registry holds a count-only global entry for it
(count zero, no consumed-periods list, no owner subject), so when the line
contains a digit the token reaches `_append_data`, whose `["Period"]` lookup
raises `KeyError` — the run aborts instead of emitting a record or skipping
the token. -/
theorem C10_bare_ambiguous_token_aborts (st : ParserSt) (sentence : Str)
    (nums : List Value) (token : Str)
    (hdata : st.data = [])
    (hlook : lookupR st.subjects_dict token = some ⟨0, none, none⟩)
    (hdig : sentence.any isDig = true) :
    process_token st sentence nums token = none := by
  have hct : change_token st.subjects_dict st.data st.other_count token
      = some (token, st.other_count) := by
    rw [change_token, if_neg]
    exact fun hand => hand.2 hdata
  have hreset : reset_fourth_and_category { st with other_count := st.other_count } token
      = some { st with other_count := st.other_count } := by
    rw [reset_fourth_and_category, if_pos]
    exact Or.inl hdata
  simp only [process_token, hct]
  simp only [hlook, Option.isSome_some, hdig, Bool.and_self, if_true]
  rw [hreset]
  have hl3 : lookupR (modifyR st.subjects_dict token
      (fun e => { e with count := e.count + 1 })) token = some ⟨1, none, none⟩ := by
    rw [lookupR_modifyR_self, hlook]
    rfl
  exact append_data_no_period _ _ _ ⟨1, none, none⟩ hl3 rfl

/-- C1: record assembly symmetry.  First part: with no pending fourth-grade
accounts, three distinct usable dates and three numbers, `_append_data`
emits exactly three records sharing the token as account (no sub-account)
and differing in period, consuming all three dates.  Second part: with one
usable date and three distinct pending fourth-grade accounts, it emits
exactly three records sharing that single period — recorded once into the
token's consumed periods — and differing in sub-account. -/
theorem C1_record_assembly_symmetry :
    (∀ (st : ParserSt) (token : Str) (e : Entry) (sp : List PeriodVal)
       (d1 d2 d3 : PeriodVal) (n1 n2 n3 : Value),
       lookupR st.subjects_dict token = some e →
       e.period = some sp →
       usableAgainst sp st.use_dates = [d1, d2, d3] →
       d1 ≠ d2 → d1 ≠ d3 → d2 ≠ d3 →
       st.fourth_grade_account = some [] →
       append_data st token [n1, n2, n3] = some { st with
         data := st.data ++
           [Rec.mk token none d1 n1 st.category st.subject_annot st.cur_subject,
            Rec.mk token none d2 n2 st.category st.subject_annot st.cur_subject,
            Rec.mk token none d3 n3 st.category st.subject_annot st.cur_subject],
         subjects_dict := modifyR st.subjects_dict token
           (fun e0 => { e0 with period := some (sp ++ [d1, d2, d3]) }) }) ∧
    (∀ (st : ParserSt) (token : Str) (e : Entry) (sp : List PeriodVal)
       (d : PeriodVal) (a1 a2 a3 : Str) (n1 n2 n3 : Value),
       lookupR st.subjects_dict token = some e →
       e.period = some sp →
       usableAgainst sp st.use_dates = [d] →
       st.fourth_grade_account = some [a1, a2, a3] →
       a1 ≠ a2 → a1 ≠ a3 → a2 ≠ a3 →
       append_data st token [n1, n2, n3] = some { st with
         data := st.data ++
           [Rec.mk token (some a1) d n1 st.category st.subject_annot st.cur_subject,
            Rec.mk token (some a2) d n2 st.category st.subject_annot st.cur_subject,
            Rec.mk token (some a3) d n3 st.category st.subject_annot st.cur_subject],
         subjects_dict := modifyR st.subjects_dict token
           (fun e0 => { e0 with period := some (sp ++ [d]) }) }) := by
  constructor
  · intro st token e sp d1 d2 d3 n1 n2 n3 hl hp hu h12 h13 h23 hf
    unfold append_data
    rw [hl]
    dsimp only
    rw [hp]
    dsimp only
    rw [hu, hf]
    simp [fourthFalsy, remove_duplicated_account]
  · intro st token e sp d a1 a2 a3 n1 n2 n3 hl hp hu hf h12 h13 h23
    have hded : ([a1, a2, a3] : List Str).dedup = [a1, a2, a3] := by
      rw [List.dedup_cons_of_not_mem (by simp [h12, h13]),
        List.dedup_cons_of_not_mem (by simp [h23]),
        List.dedup_cons_of_not_mem (List.not_mem_nil a3), List.dedup_nil]
    unfold append_data
    rw [hl]
    dsimp only
    rw [hp]
    dsimp only
    rw [hu, hf]
    simp [fourthFalsy, hded]

/-- C1 witness: both branches at concrete inputs — three dates against one
account, then one date against three distinct sub-accounts. -/
theorem C1_witness :
    (append_data c1St1 (str "存貨") [.num 100, .num 200, .num 300]).isSome = true ∧
    (append_data c1St2 (str "存貨") [.num 100, .num 200, .num 300]).isSome = true := by
  constructor
  · rw [C1_record_assembly_symmetry.1 c1St1 (str "存貨")
      ⟨1, some [], some (str "資產")⟩ []
      (.date ⟨2022, 12, 31⟩) (.date ⟨2021, 12, 31⟩) (.date ⟨2020, 12, 31⟩)
      (.num 100) (.num 200) (.num 300)
      (by decide) rfl (by decide) (by decide) (by decide) (by decide) rfl]
    rfl
  · rw [C1_record_assembly_symmetry.2 c1St2 (str "存貨")
      ⟨1, some [], some (str "資產")⟩ []
      (.date ⟨2022, 12, 31⟩) (str "原料") (str "物料") (str "製成品")
      (.num 100) (.num 200) (.num 300)
      (by decide) rfl (by decide) rfl (by decide) (by decide) (by decide)]
    rfl

/-- C3: assembling with an empty or all-identical pending fourth-grade list
checks that usable dates and numbers have equal length, aborting with the
assertion (`DataMismatchError`) and emitting nothing on a mismatch; but in
the multiple-distinct-sub-accounts branch no length check exists — `zip`
silently truncates to the shorter of the number list and the sub-account
list. -/
theorem C3_mismatch_handling :
    (∀ (st : ParserSt) (token : Str) (e : Entry) (sp : List PeriodVal)
       (nums : List Value),
       lookupR st.subjects_dict token = some e →
       e.period = some sp →
       (fourthFalsy st.fourth_grade_account
         || ((st.fourth_grade_account.getD []).dedup.length == 1)) = true →
       ¬ (usableAgainst sp st.use_dates).length = nums.length →
       append_data st token nums = none) ∧
    (∀ (st : ParserSt) (token : Str) (e : Entry) (sp : List PeriodVal)
       (d : PeriodVal) (ds : List PeriodVal) (nums : List Value),
       lookupR st.subjects_dict token = some e →
       e.period = some sp →
       (fourthFalsy st.fourth_grade_account
         || ((st.fourth_grade_account.getD []).dedup.length == 1)) = false →
       usableAgainst sp st.use_dates = d :: ds →
       append_data st token nums = some { st with
         data := st.data ++ (nums.zip (st.fourth_grade_account.getD [])).map
           (fun p => Rec.mk token (some p.2) d p.1 st.category st.subject_annot st.cur_subject),
         subjects_dict := modifyR st.subjects_dict token
           (fun e0 => { e0 with period := some (sp ++ [d]) }) } ∧
       ((nums.zip (st.fourth_grade_account.getD [])).map
           (fun p => Rec.mk token (some p.2) d p.1 st.category st.subject_annot st.cur_subject)).length
         = min nums.length (st.fourth_grade_account.getD []).length) := by
  constructor
  · intro st token e sp nums hl hp hcond hlen
    unfold append_data
    rw [hl]
    dsimp only
    rw [hp]
    dsimp only
    rw [hcond]
    simp [hlen]
  · intro st token e sp d ds nums hl hp hcond hu
    constructor
    · unfold append_data
      rw [hl]
      dsimp only
      rw [hp]
      dsimp only
      rw [hcond, hu]
      simp
    · simp [List.length_zip]

/-- C3 witness: branch one aborts on a 3-dates-versus-2-numbers mismatch;
branch two emits the zip of the numbers against the sub-account list. -/
theorem C3_witness :
    append_data c3StA (str "存貨") [.num 100, .num 200] = none ∧
    (append_data c3St (str "存貨") [.num 100, .num 200, .num 300]).isSome = true := by
  constructor
  · exact C3_mismatch_handling.1 c3StA (str "存貨")
      ⟨1, some [], some (str "資產")⟩ [] [.num 100, .num 200]
      (by decide) rfl (by decide) (by decide)
  · rw [(C3_mismatch_handling.2 c3St (str "存貨")
      ⟨1, some [], some (str "資產")⟩ [] (.date ⟨2022, 12, 31⟩) []
      [.num 100, .num 200, .num 300]
      (by decide) rfl (by decide) (by decide)).1]
    rfl

/-- C3 counterexample: in the multiple-distinct-sub-accounts case a
mismatch (two numbers against three distinct sub-accounts) does not fail —
two records are emitted silently, refuting the claimed `DataMismatchError`. -/
theorem C3_counterexample :
    c3St.fourth_grade_account = some [str "原料", str "物料", str "製成品"] ∧
    (append_data c3St (str "存貨") [.num 100, .num 200]).map (fun s => s.data.length)
        = some 2 ∧
    ¬ append_data c3St (str "存貨") [.num 100, .num 200] = none := by
  decide

/-- C10 witness: the registry loaded from a two-line dictionary holds the
count-only entry for the bare `其他`; processing that token on a digit line
with no records emitted aborts. -/
theorem C10_witness :
    c10St.data = [] ∧
    lookupR c10St.subjects_dict (str "其他") = some ⟨0, none, none⟩ ∧
    (str "其他123").any isDig = true ∧
    process_token c10St (str "其他123") [.num 123] (str "其他") = none :=
  ⟨rfl, by decide, by decide,
    C10_bare_ambiguous_token_aborts c10St (str "其他123") [.num 123] (str "其他")
      rfl (by decide) (by decide)⟩

end FSP
